import Mathlib

/-!
Shallow embedding of the cache_engine package (block-level read cache engine)
and verification of its specification claims.

The source under study is the Go package `cache_engine`: the engine facade
(`NewCacheEngine`, `Stop`, `doMount`, `GenCacheBlockKey`,
`GetCacheBlockForRead`, `PeekCacheBlock`, `createCacheBlock`, `usedSize`,
`PrepareCache`, `SendToPrepareTaskCh`, `CreateBlock`, `Status`,
`EvictVolumeCache`, ...). Pure functions are translated to Lean functions;
stateful methods are translated to explicit state-passing functions; calls
into repository code that is out of scope (the LRU implementation, the cache
block implementation, `computeAllocSize`, `syscall.Statfs`, tmpfs helpers)
are either parametrized by their observable outcome or modelled from the
specification, as noted on each definition.
-/

set_option linter.unusedVariables false

namespace CacheEngineModel

/-- Errors of the engine, one constructor per distinct error construction
site visible in the source (Go `error` values). -/
inductive EngineErr
  | zeroAllocSize      -- createCacheBlock: "alloc size is zero"
  | noSourceData       -- CreateBlock: "no source data"
  | peekFailed         -- PeekCacheBlock: "cache block peek failed"
  | getReadFailed      -- GetCacheBlockForRead: wrapped lookup failure
  | overWeight         -- LRU Set admission rejection (spec §4.3)
  | initStoreFailed    -- CacheBlock.initCacheStore failure
  | evictFailed        -- LRU destructor failure surfaced by Close
  | mountedByOther     -- doMount: "already mounted by another device"
  | dirNotEmpty        -- doMount: "not empty dir"
  deriving DecidableEq

/-- A materialized cache block, translated from `NewCacheBlock`'s identity
fields. The file handle, init latch and read-source callback are runtime
resources and are not part of the value. -/
structure CacheBlock where
  volume : String
  inode : Nat
  fixedOffset : Nat
  version : Nat
  allocSize : Nat
  deriving DecidableEq

/-- Translated from `NewCacheBlock(rootPath, volume, inode, fixedOffset,
version, allocSize, readSourceFunc)`: constructs the block value. -/
def NewCacheBlock (volume : String) (inode fixedOffset : Nat) (version : Nat)
    (allocSize : Nat) : CacheBlock :=
  ⟨volume, inode, fixedOffset, version, allocSize⟩

/-! ### Decimal formatting (model of Go `strconv.FormatUint(x, 10)`)

`toDigitsAux` is fuel-indexed structural recursion so that concrete keys
evaluate inside the kernel; `fuel = n + 1` always suffices because the
argument shrinks by a factor of ten each step. -/

def toDigitsAux : Nat → Nat → List Char
  | 0, _ => []
  | fuel + 1, n =>
    if n < 10 then [Char.ofNat (48 + n)]
    else toDigitsAux fuel (n / 10) ++ [Char.ofNat (48 + n % 10)]

/-- Decimal digits of `n`, most significant first; model of
`strconv.FormatUint(n, 10)` at the character-list level. -/
def toDigits (n : Nat) : List Char := toDigitsAux (n + 1) n

/-- Model of Go `strconv.FormatUint(n, 10)`. -/
def formatUint (n : Nat) : String := ⟨toDigits n⟩

/-- Translated from `GenCacheBlockKey`:
`volume + "/" + FormatUint(inode) + "#" + FormatUint(offset) + "#" +
FormatUint(uint64(version))`. -/
def GenCacheBlockKey (volume : String) (inode offset : Nat) (version : Nat) : String :=
  volume ++ "/" ++ formatUint inode ++ "#" ++ formatUint offset ++ "#" ++ formatUint version

/-- Model of `strings.Split(s, sep)[0]` for a one-character separator: the
prefix of `s` before the first occurrence of `sep` (the whole string when
`sep` does not occur) — exactly what `EvictVolumeCache` computes. -/
def firstField (sep : Char) (s : String) : String :=
  ⟨s.data.takeWhile (fun c => c != sep)⟩

/-! ### PeekCacheBlock (claim C1)

Translated from the source:

```go
func (c *CacheEngine) PeekCacheBlock(key string) (block *CacheBlock, err error) {
    defer func() {
        if r := recover(); r != nil { log; exporter.Warning(...) }
    }()
    lock.RLock(); defer lock.RUnlock()
    if value, get := c.lruCache.Peek(key); get {
        block = value.(*CacheBlock); return
    }
    return nil, errors.New("cache block peek failed")
}
```

The lookup in the LRU (whose implementation is out of scope) is parametrized
by its outcome, including the possibility that it panics. Go semantics of
the translated body: on a panic inside the body, the deferred function runs,
`recover()` stops the unwinding, and — because the deferred function never
assigns the named results — the function returns the zero values the named
results held at the point of the panic: `(nil, nil)`. -/

inductive PeekLookupOutcome
  | found (b : CacheBlock)
  | notFound
  | panics
  deriving DecidableEq

def PeekCacheBlock (lookup : PeekLookupOutcome) : Option CacheBlock × Option EngineErr :=
  match lookup with
  | .found b => (some b, none)
  | .notFound => (none, some .peekFailed)
  | .panics => (none, none)

/-! ### GetCacheBlockForRead (claim C5)

Translated from the source: takes the stripe lock in shared mode (`RLock`),
calls `lruCache.Get`; on success returns the block; when the error is
`CacheExpireError` it first calls the monitor callback with
`proto.ActionCacheExpire` and the requested size; in every error case it
returns a wrapped non-nil error. The LRU `Get` (implementation out of scope)
is parametrized by its three observable outcomes. -/

inductive LockMode
  | shared
  | exclusive
  deriving DecidableEq

inductive CacheAction
  | cacheExpire   -- proto.ActionCacheExpire
  | cacheEvict    -- proto.ActionCacheEvict
  deriving DecidableEq

structure MonitorEvent where
  volume : String
  action : CacheAction
  dataSize : Nat
  deriving DecidableEq

inductive GetOutcome
  | hit (b : CacheBlock)
  | expired
  | missing
  deriving DecidableEq

structure ReadOutcome where
  lockMode : LockMode
  block : Option CacheBlock
  err : Option EngineErr
  monitor : List MonitorEvent

def GetCacheBlockForRead (volume : String) (inode offset : Nat) (version : Nat)
    (size : Nat) (outcome : GetOutcome) : ReadOutcome :=
  match outcome with
  | .hit b => ⟨.shared, some b, none, []⟩
  | .expired => ⟨.shared, none, some .getReadFailed, [⟨volume, .cacheExpire, size⟩]⟩
  | .missing => ⟨.shared, none, some .getReadFailed, []⟩

/-! ### usedSize and Status (claim C6)

Translated from the source:

```go
func (c *CacheEngine) usedSize() (size int64) {
    stat := syscall.Statfs_t{}
    err := syscall.Statfs(c.rootPath, &stat)
    if err != nil { log; return }
    return int64(stat.Blocks) * int64(stat.Bsize)
}
```

`syscall.Statfs` is an external call; it is parametrized by its result
(`none` models the error case, in which the Go function returns the zero
value of the named result). -/

structure StatfsT where
  blocks : Nat   -- stat.Blocks: total data blocks in the filesystem
  bfree : Nat    -- stat.Bfree: free blocks
  bsize : Nat    -- stat.Bsize: block size
  deriving DecidableEq

def usedSize (statfs : Option StatfsT) : Nat :=
  match statfs with
  | none => 0
  | some s => s.blocks * s.bsize

/-- Modelled from the spec: `fs_used_bytes` is the number of "bytes
currently consumed on the backing fs" (§4.1 `used_bytes()`); for a statfs
result that is `(Blocks - Bfree) * Bsize`. This is the specification-side
definition that `Status().Used` is claimed to equal. -/
def fsConsumedBytes (s : StatfsT) : Nat := (s.blocks - s.bfree) * s.bsize

/-! ### doMount (claim C4)

Translated from the source. The filesystem state visible to `doMount` is
abstracted to the five predicates the code branches on; syscall failures
(`os.Stat` errors other than not-exist, `IsMountPoint` errors, `ReadDir`
errors) are not modelled — the claim is about the failure-free protocol. -/

structure FsState where
  rootExists : Bool     -- os.Stat succeeds (vs. IsNotExist)
  mounted : Bool        -- tmpfs.IsMountPoint
  mountedTmpfs : Bool   -- tmpfs.IsTmpfs (meaningful when mounted)
  sentinel : Bool       -- the init file exists at the root
  nonEmpty : Bool       -- os.ReadDir returns at least one entry
  deriving DecidableEq

inductive MountAction
  | mountFreshAndSentinel  -- initTmpfs: MountTmpfs then createInitFile
  | umountThenFresh        -- tmpfs.Umount then initTmpfs
  | failOccupied           -- "already mounted by another device"
  | failDirty              -- "not empty dir"
  deriving DecidableEq

/-- Translated from `CacheEngine.doMount`, branch for branch. -/
def doMount (s : FsState) : MountAction :=
  if !s.rootExists then .mountFreshAndSentinel
  else if s.mounted && !s.mountedTmpfs then .failOccupied
  else if s.mounted && s.sentinel then .umountThenFresh
  else if s.nonEmpty then .failDirty
  else .mountFreshAndSentinel

/-- Translated from `os.MkdirAll(rootPath, 0755)` in `NewCacheEngine`: a
nonexistent root is created as a fresh (empty, unmounted) directory; an
existing root is untouched. -/
def mkdirAll (s : FsState) : FsState :=
  if s.rootExists then s else ⟨true, false, false, false, false⟩

/-- The startup mount protocol as run from `NewCacheEngine`: `MkdirAll`
followed by `doMount`. -/
def newCacheEngineMount (s : FsState) : MountAction :=
  doMount (mkdirAll s)

/-! ### Stop (claim C9)

Translated from the source:

```go
func (c *CacheEngine) Stop() (err error) {
    err = c.lruCache.Close()
    if err != nil { return err }
    close(c.closeC)
    c.closed = true
    time.Sleep(time.Second * 2)
    return c.dropStore()  // tmpfs.Umount(rootPath)
}
```

The results of the two out-of-scope calls (`lruCache.Close`, the umount)
are parameters; the function returns the ordered trace of shutdown steps it
performed together with its error result. -/

inductive StopEvent
  | lruClose           -- lruCache.Close(): close the LRU, run destructors
  | closeChanClosed    -- close(c.closeC): broadcast to workers and watchdog
  | sleepSeconds (n : Nat)  -- time.Sleep grace period
  | umountStore        -- dropStore(): tmpfs.Umount(rootPath)
  deriving DecidableEq

def Stop (lruCloseResult : Option EngineErr) (umountResult : Option EngineErr) :
    List StopEvent × Option EngineErr :=
  match lruCloseResult with
  | some e => ([.lruClose], some e)
  | none => ([.lruClose, .closeChanClosed, .sleepSeconds 2, .umountStore], umountResult)

/-! ### The LRU index (modelled from the spec, §4.3)

The LRU implementation (`NewCache`, `Set`, `Get`, `Peek`, `Evict`, ...) is
repository code outside the source slice; only its use sites are in scope.
It is modelled from the spec as an MRU-ordered association list: `set`
removes any prior entry for the key, inserts at the MRU head, then evicts
from the LRU tail while `count > capacity` or `total weight > max_bytes`,
returning the total weight evicted in this call, and fails with `OverWeight`
when the entry's weight alone exceeds the byte budget; `peek` is a pure
lookup; `evict` removes the entry if present and reports whether it did. -/

structure LruEntry where
  key : String
  value : CacheBlock
  ttlSec : Int
  deriving DecidableEq

/-- LRU index state, MRU first. -/
abbrev Lru := List LruEntry

/-- Sum of entry weights (each block's allocated size), spec §3. -/
def lruTotalWeight (l : Lru) : Nat := (l.map (fun e => e.value.allocSize)).sum

/-- Modelled from the spec: the eviction loop of `set` — "while
`count > capacity` or `total_weight > max_bytes`, evict from the LRU tail".
Fuel-indexed structural recursion (`fuel = l.length` suffices: every step
drops the tail entry). Returns the surviving list and the evicted weight. -/
def evictLoopAux : Nat → Nat → Nat → Lru → Lru × Nat
  | 0, _, _, l => (l, 0)
  | fuel + 1, capacity, maxAlloc, l =>
    if l.length > capacity ∨ lruTotalWeight l > maxAlloc then
      match l.getLast? with
      | none => (l, 0)
      | some e =>
        let r := evictLoopAux fuel capacity maxAlloc l.dropLast
        (r.1, r.2 + e.value.allocSize)
    else (l, 0)

def evictLoop (capacity maxAlloc : Nat) (l : Lru) : Lru × Nat :=
  evictLoopAux l.length capacity maxAlloc l

/-- Modelled from the spec: `peek(key)` — presence lookup with no LRU-order
movement, no statistics update, no expiry eviction (§4.3). -/
def lruPeek (l : Lru) (k : String) : Option CacheBlock :=
  (l.find? (fun e => e.key == k)).map (fun e => e.value)

/-- Engine configuration, translated from `CacheConfig`. -/
structure CacheConfig where
  maxAlloc : Nat
  total : Nat
  capacity : Nat
  deriving DecidableEq

/-- Modelled from the spec: `set(key, value, weight, ttl) → evicted_bytes`
(§4.3). Replaces any prior entry for the key at the MRU head, restores the
count and byte invariants by tail eviction, and fails with `OverWeight`
when `weight > max_bytes`. -/
def lruSet (cfg : CacheConfig) (l : Lru) (k : String) (b : CacheBlock) (ttl : Int) :
    Except EngineErr (Nat × Lru) :=
  if b.allocSize > cfg.maxAlloc then .error .overWeight
  else
    .ok (evictLoop cfg.capacity cfg.maxAlloc
      (⟨k, b, ttl⟩ :: l.filter (fun e => e.key != k))).swap

/-- Modelled from the spec: `evict(key) → bool` — remove if present, run
destructors, return whether removed (§4.3). -/
def lruEvict (l : Lru) (k : String) : Lru × Bool :=
  match l.find? (fun e => e.key == k) with
  | some _ => (l.filter (fun e => e.key != k), true)
  | none => (l, false)

/-! ### createCacheBlock (claims C3, C7)

Translated from the source:

```go
func (c *CacheEngine) createCacheBlock(volume string, inode, fixedOffset uint64,
    version uint32, ttl int64, allocSize uint64) (block *CacheBlock, err error) {
    if allocSize == 0 { return nil, fmt.Errorf("alloc size is zero") }
    var key = GenCacheBlockKey(volume, inode, fixedOffset, version)
    lock.Lock()
    if value, get := c.lruCache.Peek(key); get { lock.Unlock(); return value.(*CacheBlock), nil }
    block = NewCacheBlock(c.rootPath, volume, inode, fixedOffset, version, allocSize, c.readSourceFunc)
    if ttl <= 0 { ttl = proto.DefaultCacheTTLSec }
    n, err = c.lruCache.Set(key, block, time.Duration(ttl)*time.Second)
    lock.Unlock()
    if err != nil { return }
    err = block.initCacheStore()
    if n > 0 { c.monitorFunc(volume, proto.ActionCacheEvict, uint64(n)) }
    return
}
```

`block.initCacheStore()` (out of scope) is parametrized by its result. The
outcome records, besides the returned value and the new LRU state, which of
the three effectful steps ran (`NewCacheBlock`, `lruCache.Set`,
`initCacheStore`), the TTL argument passed to `Set`, and the monitoring
event emitted. -/

/-- Modelled from the spec: `proto.DefaultCacheTTLSec` is a package-level
constant of the `proto` package, outside the source slice; the spec fixes no
numeric value ("`ttl ≤ 0` falls back to the default TTL"), and no claim
depends on the value — only on the fact that it is a fixed constant,
independent of the engine's configuration. 432000 (five days, in seconds)
stands in for it. -/
def DefaultCacheTTLSec : Int := 432000

structure CreateOutcome where
  result : Except EngineErr CacheBlock
  lru : Lru
  constructed : Bool        -- NewCacheBlock was called
  inserted : Bool           -- lruCache.Set was called
  initializedStore : Bool   -- block.initCacheStore was called
  setTtlSec : Option Int    -- the TTL (seconds) passed to lruCache.Set
  monitor : Option MonitorEvent

def createCacheBlock (cfg : CacheConfig) (lru : Lru) (volume : String)
    (inode fixedOffset : Nat) (version : Nat) (ttl : Int) (allocSize : Nat)
    (initStoreResult : Option EngineErr) : CreateOutcome :=
  if allocSize = 0 then ⟨.error .zeroAllocSize, lru, false, false, false, none, none⟩
  else
    match lruPeek lru (GenCacheBlockKey volume inode fixedOffset version) with
    | some b => ⟨.ok b, lru, false, false, false, none, none⟩
    | none =>
      match lruSet cfg lru (GenCacheBlockKey volume inode fixedOffset version)
          (NewCacheBlock volume inode fixedOffset version allocSize)
          (if ttl ≤ 0 then DefaultCacheTTLSec else ttl) with
      | .error e =>
        ⟨.error e, lru, true, false, false,
          some (if ttl ≤ 0 then DefaultCacheTTLSec else ttl), none⟩
      | .ok (n, lru') =>
        ⟨match initStoreResult with
          | some e => .error e
          | none => .ok (NewCacheBlock volume inode fixedOffset version allocSize),
         lru', true, true, true,
         some (if ttl ≤ 0 then DefaultCacheTTLSec else ttl),
         if n > 0 then some ⟨volume, .cacheEvict, n⟩ else none⟩

/-! ### CreateBlock, SendToPrepareTaskCh, PrepareCache (claims C2, C8) -/

structure DataSource where
  size : Nat
  deriving DecidableEq

/-- The cache request wire shape (spec §6); fields used by the engine. -/
structure CacheRequest where
  volume : String
  inode : Nat
  fixedFileOffset : Nat
  version : Nat
  ttl : Int
  sources : List DataSource
  deriving DecidableEq

structure CreateBlockOutcome where
  result : Except EngineErr CacheBlock
  lru : Lru

/-- Translated from `CacheEngine.CreateBlock`. `computeAllocSize` is
repository code outside the source slice; it is parametrized by its result
(`allocResult`), as is `initCacheStore`. On a `createCacheBlock` failure the
source runs `c.deleteCacheBlock(key)` — an LRU `Evict` of the key — before
propagating the error. -/
def CreateBlock (cfg : CacheConfig) (lru : Lru) (req : CacheRequest)
    (allocResult : Except EngineErr Nat) (initStoreResult : Option EngineErr) :
    CreateBlockOutcome :=
  if req.sources.isEmpty then ⟨.error .noSourceData, lru⟩
  else
    match allocResult with
    | .error e => ⟨.error e, lru⟩
    | .ok alloc =>
      match (createCacheBlock cfg lru req.volume req.inode req.fixedFileOffset
          req.version req.ttl alloc initStoreResult).result with
      | .error e =>
        ⟨.error e,
          (lruEvict
            (createCacheBlock cfg lru req.volume req.inode req.fixedFileOffset
              req.version req.ttl alloc initStoreResult).lru
            (GenCacheBlockKey req.volume req.inode req.fixedFileOffset req.version)).1⟩
      | .ok b =>
        ⟨.ok b,
          (createCacheBlock cfg lru req.volume req.inode req.fixedFileOffset
            req.version req.ttl alloc initStoreResult).lru⟩

structure PrepareTask where
  reqID : Int
  request : CacheRequest
  deriving DecidableEq

/-- Capacity of `cachePrepareTaskCh` (`make(chan *cachePrepareTask, 1024)`). -/
def prepareTaskChCap : Nat := 1024

/-- Translated from `CacheEngine.SendToPrepareTaskCh`: a `select` with a
`default` branch on the buffered channel — when the buffer has room the task
is enqueued, otherwise the task is dropped and a warning is logged; in
neither case does the call block or return an error. Returns the new queue
and whether the full-queue warning was logged. -/
def SendToPrepareTaskCh (queue : List PrepareTask) (reqID : Int) (req : CacheRequest) :
    List PrepareTask × Bool :=
  if queue.length < prepareTaskChCap then (queue ++ [⟨reqID, req⟩], false)
  else (queue, true)

structure PrepareOutcome where
  err : Option EngineErr
  lru : Lru
  queue : List PrepareTask
  droppedWarn : Bool

/-- Translated from `CacheEngine.PrepareCache`: admit via `CreateBlock`;
on admission failure propagate the error; otherwise post the task
(non-blocking) and return success. -/
def PrepareCache (cfg : CacheConfig) (lru : Lru) (queue : List PrepareTask)
    (reqID : Int) (req : CacheRequest) (allocResult : Except EngineErr Nat)
    (initStoreResult : Option EngineErr) : PrepareOutcome :=
  match (CreateBlock cfg lru req allocResult initStoreResult).result with
  | .error e =>
    ⟨some e, (CreateBlock cfg lru req allocResult initStoreResult).lru, queue, false⟩
  | .ok _ =>
    ⟨none, (CreateBlock cfg lru req allocResult initStoreResult).lru,
      (SendToPrepareTaskCh queue reqID req).1, (SendToPrepareTaskCh queue reqID req).2⟩

/-! ### NewCacheEngine and Status -/

/-- Engine state assembled by `NewCacheEngine`. The floating-point
computation `MaxAlloc = int64(float64(totalSize) * maxUseRatio)` is
abstracted by taking the resulting byte count directly; `expireSec` is the
`expireTime` duration argument (in seconds) that the source forwards to
`NewCache` as the LRU's expire time. -/
structure CacheEngine where
  rootPath : String
  config : CacheConfig
  expireSec : Int
  lru : Lru
  queue : List PrepareTask
  closed : Bool

def NewCacheEngine (rootPath : String) (totalSize maxAllocBytes : Nat)
    (capacity : Nat) (expireSec : Int) : CacheEngine :=
  { rootPath := rootPath
    config := ⟨maxAllocBytes, totalSize, capacity⟩
    expireSec := expireSec
    lru := []
    queue := []
    closed := false }

/-- The fields of `proto.CacheStatus` that the claims mention (`HitRate`
is floating-point arithmetic over LRU statistics outside the source slice
and is omitted). -/
structure CacheStatus where
  maxAlloc : Nat
  hasAlloc : Nat
  total : Nat
  num : Nat
  capacity : Nat
  used : Nat
  deriving DecidableEq

/-- Translated from `CacheEngine.Status`: `Used` is `c.usedSize()`, i.e.
`Blocks * Bsize` of the statfs result for the root path. -/
def Status (cfg : CacheConfig) (lru : Lru) (statfs : Option StatfsT) : CacheStatus :=
  { maxAlloc := cfg.maxAlloc
    hasAlloc := lruTotalWeight lru
    total := cfg.total
    num := lru.length
    capacity := cfg.capacity
    used := usedSize statfs }

/-! ## Claim theorems -/

/-- Claim C1: the claim says that when the cache lookup inside `PeekCacheBlock`
panics, the recovered function returns a non-nil `PeekFailed` error rather
than a nil block together with a nil error. The code recovers the panic but
its deferred handler never assigns the named `err` result, so the function
returns exactly the nil block / nil error pair the claim rules out: a code
bug (the spec requires the panic be "converted to `PeekFailed`", and every
caller treats a nil error as success and dereferences the nil block). This
theorem evaluates the translated function at the failing input. -/
theorem peekCacheBlock_panic_recovered_returns_nil_error :
    PeekCacheBlock .panics = (none, none) ∧
    (PeekCacheBlock .notFound).2 = some .peekFailed := by
  exact ⟨rfl, rfl⟩

/-- Claim C5: `GetCacheBlockForRead` takes the stripe lock in shared mode and:
on an expired entry it calls the monitor callback with the cache-expire
action and the requested size and returns an error; on a missing entry it
returns an error without calling the monitor; on a fresh hit it returns the
cached block with no error and no monitor call. -/
theorem getCacheBlockForRead_contract (volume : String) (inode offset version size : Nat) :
    (∀ b, GetCacheBlockForRead volume inode offset version size (.hit b) =
      ⟨.shared, some b, none, []⟩) ∧
    (GetCacheBlockForRead volume inode offset version size .expired =
      ⟨.shared, none, some .getReadFailed, [⟨volume, .cacheExpire, size⟩]⟩) ∧
    (GetCacheBlockForRead volume inode offset version size .missing =
      ⟨.shared, none, some .getReadFailed, []⟩) := by
  exact ⟨fun _ => rfl, rfl, rfl⟩

/-- Claim C6: the claim says `Status().Used` equals the bytes currently consumed
on the backing filesystem. The code computes `stat.Blocks * stat.Bsize` —
the filesystem's total size — not `(stat.Blocks - stat.Bfree) * stat.Bsize`.
At a statfs state with 1000 blocks of 4096 bytes of which 900 are free, the
code reports 4096000 while the consumed bytes are 409600: a code bug (the
field and the helper are named "used", and the total is already reported
separately as `Total`). -/
theorem status_used_reports_total_fs_bytes :
    (Status ⟨1048576, 4194304, 16⟩ [] (some ⟨1000, 900, 4096⟩)).used = 4096000 ∧
    fsConsumedBytes ⟨1000, 900, 4096⟩ = 409600 ∧
    (Status ⟨1048576, 4194304, 16⟩ [] (some ⟨1000, 900, 4096⟩)).used ≠
      fsConsumedBytes ⟨1000, 900, 4096⟩ := by
  decide

/-- Claim C4: the startup mount protocol, as run from `NewCacheEngine` (`MkdirAll`
then `doMount`), realizes the five specified cases: nonexistent root →
create it, mount fresh, write sentinel; mounted memfs with sentinel →
unmount, mount fresh, rewrite sentinel; mounted by a non-memfs → fail;
unmounted and empty → mount fresh, write sentinel; unmounted and non-empty
→ fail. -/
theorem doMount_realizes_five_cases (s : FsState) :
    (s.rootExists = false → newCacheEngineMount s = .mountFreshAndSentinel) ∧
    (s.rootExists = true → s.mounted = true → s.mountedTmpfs = true → s.sentinel = true →
      newCacheEngineMount s = .umountThenFresh) ∧
    (s.rootExists = true → s.mounted = true → s.mountedTmpfs = false →
      newCacheEngineMount s = .failOccupied) ∧
    (s.rootExists = true → s.mounted = false → s.nonEmpty = false →
      newCacheEngineMount s = .mountFreshAndSentinel) ∧
    (s.rootExists = true → s.mounted = false → s.nonEmpty = true →
      newCacheEngineMount s = .failDirty) := by
  obtain ⟨re, m, t, sn, ne⟩ := s
  cases re <;> cases m <;> cases t <;> cases sn <;> cases ne <;> decide

/-- Witness for C4 at a concrete state: a nonexistent root is created and
freshly mounted with the sentinel written. -/
theorem doMount_realizes_five_cases_app :
    newCacheEngineMount ⟨false, false, false, false, false⟩ = .mountFreshAndSentinel :=
  (doMount_realizes_five_cases ⟨false, false, false, false, false⟩).1 rfl

/-- Claim C9: on every invocation of `Stop` the shutdown steps occur in order:
the LRU is closed first; when that succeeds, the close channel is closed,
then a two-second grace period elapses, then the backing store is
unmounted; the unmount never precedes the LRU close. -/
theorem stop_shutdown_order (r u : Option EngineErr) :
    (r ≠ none → (Stop r u).1 = [.lruClose]) ∧
    (r = none →
      (Stop r u).1 = [.lruClose, .closeChanClosed, .sleepSeconds 2, .umountStore]) ∧
    (∀ i, (Stop r u).1.get? i = some .umountStore →
      ∃ j, j < i ∧ (Stop r u).1.get? j = some .lruClose) := by
  cases r with
  | some e =>
    refine ⟨fun _ => rfl, fun h => by simp at h, ?_⟩
    intro i hi
    match i, hi with
    | 0, hi => exact absurd hi (by simp [Stop])
    | n + 1, hi => exact absurd hi (by simp [Stop])
  | none =>
    refine ⟨fun h => absurd rfl h, fun _ => rfl, ?_⟩
    intro i hi
    match i, hi with
    | 0, hi => exact absurd hi (by simp [Stop])
    | 1, hi => exact absurd hi (by simp [Stop])
    | 2, hi => exact absurd hi (by simp [Stop])
    | 3, hi => exact ⟨0, by omega, rfl⟩
    | n + 4, hi => exact absurd hi (by simp [Stop])

/-- Witness for C9 at a concrete input: the successful-shutdown trace. -/
theorem stop_shutdown_order_app :
    (Stop none none).1 = [.lruClose, .closeChanClosed, .sleepSeconds 2, .umountStore] :=
  (stop_shutdown_order none none).2.1 rfl

/-! ### LRU helper lemmas -/

/-- The eviction loop leaves the index untouched when neither the count cap
nor the byte budget is exceeded. -/
theorem evictLoop_no_pressure (capacity maxAlloc : Nat) (l : Lru)
    (h₁ : l.length ≤ capacity) (h₂ : lruTotalWeight l ≤ maxAlloc) :
    evictLoop capacity maxAlloc l = (l, 0) := by
  unfold evictLoop
  cases hl : l.length with
  | zero => rfl
  | succ m =>
    show evictLoopAux (m + 1) capacity maxAlloc l = (l, 0)
    unfold evictLoopAux
    rw [if_neg (by omega)]

/-- A `set` of a fresh key under no eviction pressure inserts the entry at
the MRU head and evicts nothing. -/
theorem lruSet_fresh_insert (cfg : CacheConfig) (l : Lru) (k : String)
    (b : CacheBlock) (ttl : Int)
    (habs : l.find? (fun e => e.key == k) = none)
    (hcap : l.length < cfg.capacity)
    (hwt : lruTotalWeight l + b.allocSize ≤ cfg.maxAlloc) :
    lruSet cfg l k b ttl = .ok (0, ⟨k, b, ttl⟩ :: l) := by
  unfold lruSet
  rw [if_neg (by omega)]
  have hfilter : l.filter (fun e => e.key != k) = l := by
    apply List.filter_eq_self.mpr
    intro a ha
    have := List.find?_eq_none.mp habs a ha
    simpa [bne] using this
  rw [hfilter]
  have hwt' : lruTotalWeight (⟨k, b, ttl⟩ :: l) ≤ cfg.maxAlloc := by
    unfold lruTotalWeight at hwt ⊢
    simp only [List.map_cons, List.sum_cons]
    omega
  rw [evictLoop_no_pressure cfg.capacity cfg.maxAlloc (⟨k, b, ttl⟩ :: l)
    (by simpa using hcap) hwt']
  rfl

/-- Peeking a key that was just put at the MRU head finds it. -/
theorem lruPeek_cons_self (l : Lru) (k : String) (b : CacheBlock) (ttl : Int) :
    lruPeek (⟨k, b, ttl⟩ :: l) k = some b := by
  simp [lruPeek, List.find?]

/-- Evicting an absent key leaves the index unchanged. -/
theorem lruEvict_absent (l : Lru) (k : String)
    (h : lruPeek l k = none) : lruEvict l k = (l, false) := by
  unfold lruEvict
  have hfind : l.find? (fun e => e.key == k) = none := by
    unfold lruPeek at h
    exact Option.map_eq_none'.mp h
  rw [hfind]

/-! ### Claims C2, C3, C7, C8 -/

/-- Claim C2: whenever admission (`CreateBlock`) succeeds, `PrepareCache` returns
success even when the prepare task queue is full: the enqueue is
non-blocking, and on a full queue the task is dropped and the full-queue
warning is recorded without surfacing an error; on a non-full queue the
task is appended. -/
theorem prepareCache_succeeds_despite_full_queue (cfg : CacheConfig) (lru : Lru)
    (queue : List PrepareTask) (reqID : Int) (req : CacheRequest)
    (allocResult : Except EngineErr Nat) (initStoreResult : Option EngineErr)
    (b : CacheBlock)
    (h : (CreateBlock cfg lru req allocResult initStoreResult).result = .ok b) :
    (PrepareCache cfg lru queue reqID req allocResult initStoreResult).err = none ∧
    (prepareTaskChCap ≤ queue.length →
      (PrepareCache cfg lru queue reqID req allocResult initStoreResult).queue = queue ∧
      (PrepareCache cfg lru queue reqID req allocResult initStoreResult).droppedWarn = true) ∧
    (queue.length < prepareTaskChCap →
      (PrepareCache cfg lru queue reqID req allocResult initStoreResult).queue =
        queue ++ [⟨reqID, req⟩] ∧
      (PrepareCache cfg lru queue reqID req allocResult initStoreResult).droppedWarn = false) := by
  unfold PrepareCache
  rw [h]
  refine ⟨rfl, fun hq => ?_, fun hq => ?_⟩
  · unfold SendToPrepareTaskCh
    rw [if_neg (by omega)]
    exact ⟨rfl, rfl⟩
  · unfold SendToPrepareTaskCh
    rw [if_pos hq]
    exact ⟨rfl, rfl⟩

/-- Witness for C2 at a concrete input: a fresh engine admits the request
and `PrepareCache` returns success. -/
theorem prepareCache_succeeds_despite_full_queue_app :
    (PrepareCache ⟨1048576, 4194304, 16⟩ [] [] 1 ⟨"vol", 1, 0, 7, 60, [⟨65536⟩]⟩
      (.ok 65536) none).err = none :=
  (prepareCache_succeeds_despite_full_queue ⟨1048576, 4194304, 16⟩ [] [] 1
    ⟨"vol", 1, 0, 7, 60, [⟨65536⟩]⟩ (.ok 65536) none ⟨"vol", 1, 0, 7, 65536⟩ rfl).1

/-- Claim C3: when a block is already present in the LRU for the key,
`createCacheBlock` returns that block without constructing a new one,
without touching the LRU, and without initializing backing storage; hence
a second `createCacheBlock` for the same key after a successful first one
returns the same block with exactly one creation. -/
theorem createCacheBlock_existing_block_reused (cfg : CacheConfig) (lru : Lru)
    (volume : String) (inode fixedOffset version : Nat) (ttl : Int) (alloc : Nat)
    (initRes : Option EngineErr) (halloc : alloc ≠ 0) :
    (∀ b, lruPeek lru (GenCacheBlockKey volume inode fixedOffset version) = some b →
      createCacheBlock cfg lru volume inode fixedOffset version ttl alloc initRes =
        ⟨.ok b, lru, false, false, false, none, none⟩) ∧
    (lruPeek lru (GenCacheBlockKey volume inode fixedOffset version) = none →
     alloc ≤ cfg.maxAlloc → lru.length < cfg.capacity →
     lruTotalWeight lru + alloc ≤ cfg.maxAlloc →
      (createCacheBlock cfg lru volume inode fixedOffset version ttl alloc none).constructed
        = true ∧
      (createCacheBlock cfg lru volume inode fixedOffset version ttl alloc none).result =
        .ok (NewCacheBlock volume inode fixedOffset version alloc) ∧
      createCacheBlock cfg
          (createCacheBlock cfg lru volume inode fixedOffset version ttl alloc none).lru
          volume inode fixedOffset version ttl alloc none =
        ⟨.ok (NewCacheBlock volume inode fixedOffset version alloc),
         (createCacheBlock cfg lru volume inode fixedOffset version ttl alloc none).lru,
         false, false, false, none, none⟩) := by
  constructor
  · intro b hb
    unfold createCacheBlock
    rw [if_neg halloc, hb]
  · intro hpeek hw hcap hwt
    have hfind : lru.find? (fun e => e.key == GenCacheBlockKey volume inode fixedOffset version)
        = none := by
      unfold lruPeek at hpeek
      exact Option.map_eq_none'.mp hpeek
    have hset := lruSet_fresh_insert cfg lru (GenCacheBlockKey volume inode fixedOffset version)
      (NewCacheBlock volume inode fixedOffset version alloc)
      (if ttl ≤ 0 then DefaultCacheTTLSec else ttl) hfind hcap hwt
    have h₁ : createCacheBlock cfg lru volume inode fixedOffset version ttl alloc none =
        ⟨.ok (NewCacheBlock volume inode fixedOffset version alloc),
         ⟨GenCacheBlockKey volume inode fixedOffset version,
          NewCacheBlock volume inode fixedOffset version alloc,
          if ttl ≤ 0 then DefaultCacheTTLSec else ttl⟩ :: lru,
         true, true, true, some (if ttl ≤ 0 then DefaultCacheTTLSec else ttl), none⟩ := by
      unfold createCacheBlock
      rw [if_neg halloc, hpeek, hset]
      rfl
    refine ⟨by rw [h₁], by rw [h₁], ?_⟩
    rw [h₁]
    unfold createCacheBlock
    rw [if_neg halloc, lruPeek_cons_self]

/-- Witness for C3 at a concrete input: with the block already present,
`createCacheBlock` returns it and performs no creation, insertion or
storage initialization. -/
theorem createCacheBlock_existing_block_reused_app :
    createCacheBlock ⟨1048576, 4194304, 16⟩
        [⟨GenCacheBlockKey "vol" 1 0 7, ⟨"vol", 1, 0, 7, 65536⟩, 60⟩]
        "vol" 1 0 7 60 65536 none =
      ⟨.ok ⟨"vol", 1, 0, 7, 65536⟩,
       [⟨GenCacheBlockKey "vol" 1 0 7, ⟨"vol", 1, 0, 7, 65536⟩, 60⟩],
       false, false, false, none, none⟩ :=
  (createCacheBlock_existing_block_reused ⟨1048576, 4194304, 16⟩
      [⟨GenCacheBlockKey "vol" 1 0 7, ⟨"vol", 1, 0, 7, 65536⟩, 60⟩]
      "vol" 1 0 7 60 65536 none (by decide)).1
    ⟨"vol", 1, 0, 7, 65536⟩ (by rfl)

/-- Claim C7 counterexample: the claim says that for `ttl ≤ 0` the block is
inserted with the expire duration supplied to `NewCacheEngine`. The code
instead uses the package constant `proto.DefaultCacheTTLSec`, which is
independent of that argument: with an engine constructed with expire
duration `DefaultCacheTTLSec + 1` and a request with `ttl = 0`, the TTL
passed to the LRU `Set` is `DefaultCacheTTLSec`, not the engine's value. -/
theorem createCacheBlock_default_ttl_not_engine_expire :
    (createCacheBlock
        (NewCacheEngine "/cache" 4194304 1048576 16 (DefaultCacheTTLSec + 1)).config
        [] "vol" 1 0 7 0 65536 none).setTtlSec = some DefaultCacheTTLSec ∧
    DefaultCacheTTLSec ≠
      (NewCacheEngine "/cache" 4194304 1048576 16 (DefaultCacheTTLSec + 1)).expireSec := by
  exact ⟨rfl, by decide⟩

/-- Claim C7 (amended): for every request admitted for a fresh key, the TTL
passed to the LRU `Set` is the package-level default constant
(`proto.DefaultCacheTTLSec`) when the requested `ttl ≤ 0`, and the
requested value in seconds when `ttl > 0`. -/
theorem createCacheBlock_ttl_fallback (cfg : CacheConfig) (lru : Lru)
    (volume : String) (inode fixedOffset version : Nat) (ttl : Int) (alloc : Nat)
    (initRes : Option EngineErr) (halloc : alloc ≠ 0)
    (hpeek : lruPeek lru (GenCacheBlockKey volume inode fixedOffset version) = none) :
    (createCacheBlock cfg lru volume inode fixedOffset version ttl alloc initRes).setTtlSec =
      some (if ttl ≤ 0 then DefaultCacheTTLSec else ttl) := by
  unfold createCacheBlock
  rw [if_neg halloc, hpeek]
  cases hset : lruSet cfg lru (GenCacheBlockKey volume inode fixedOffset version)
      (NewCacheBlock volume inode fixedOffset version alloc)
      (if ttl ≤ 0 then DefaultCacheTTLSec else ttl) with
  | error e => rfl
  | ok p => rfl

/-- Witness for the amended C7 at a concrete input: a positive requested
TTL is used as is. -/
theorem createCacheBlock_ttl_fallback_app :
    (createCacheBlock ⟨1048576, 4194304, 16⟩ [] "vol" 1 0 7 5 65536 none).setTtlSec =
      some 5 := by
  simpa using createCacheBlock_ttl_fallback ⟨1048576, 4194304, 16⟩ [] "vol" 1 0 7 5 65536
    none (by decide) rfl

/-- Claim C8 counterexample: the claim says a failed admission leaves the cache
contents unchanged. When the computed allocated size is zero and a block
already sits in the LRU under the request's key, `CreateBlock`'s failure
cleanup (`deleteCacheBlock`) evicts that pre-existing block: starting from
a one-entry cache, the failed call empties it. -/
theorem createBlock_zero_alloc_evicts_preexisting :
    (CreateBlock ⟨1048576, 4194304, 16⟩
        [⟨GenCacheBlockKey "vol" 1 0 7, ⟨"vol", 1, 0, 7, 65536⟩, 60⟩]
        ⟨"vol", 1, 0, 7, 60, [⟨0⟩]⟩ (.ok 0) none).lru = [] ∧
    ([⟨GenCacheBlockKey "vol" 1 0 7, ⟨"vol", 1, 0, 7, 65536⟩, 60⟩] : Lru) ≠ [] := by
  refine ⟨?_, by simp⟩
  rfl

/-- Claim C8 (amended): `CreateBlock` fails with the no-sources error on an empty
source list, leaving the cache unchanged, and fails with the zero-alloc
error when the computed allocated size is zero; in the zero-alloc case no
new block is registered — the resulting cache is the original one with a
best-effort evict of the request's key applied, which is the unchanged
cache whenever no block was already registered under that key. -/
theorem createBlock_failed_admission_no_new_block (cfg : CacheConfig) (lru : Lru)
    (req : CacheRequest) (allocResult : Except EngineErr Nat)
    (initRes : Option EngineErr) :
    (req.sources = [] →
      CreateBlock cfg lru req allocResult initRes = ⟨.error .noSourceData, lru⟩) ∧
    (req.sources ≠ [] → allocResult = .ok 0 →
      (CreateBlock cfg lru req allocResult initRes).result = .error .zeroAllocSize ∧
      (CreateBlock cfg lru req allocResult initRes).lru =
        (lruEvict lru
          (GenCacheBlockKey req.volume req.inode req.fixedFileOffset req.version)).1 ∧
      (lruPeek lru (GenCacheBlockKey req.volume req.inode req.fixedFileOffset req.version)
          = none →
        (CreateBlock cfg lru req allocResult initRes).lru = lru)) := by
  constructor
  · intro hs
    unfold CreateBlock
    rw [if_pos (List.isEmpty_iff.mpr hs)]
  · intro hs hz
    subst hz
    have hne : req.sources.isEmpty = false := by
      cases hcase : req.sources with
      | nil => exact absurd hcase hs
      | cons a l => rfl
    unfold CreateBlock
    rw [hne]
    refine ⟨rfl, rfl, fun hpeek => ?_⟩
    show (lruEvict lru
      (GenCacheBlockKey req.volume req.inode req.fixedFileOffset req.version)).1 = lru
    rw [lruEvict_absent lru _ hpeek]

/-- Witness for the amended C8 at a concrete input: an empty source list is
rejected with the cache untouched. -/
theorem createBlock_failed_admission_no_new_block_app :
    CreateBlock ⟨1048576, 4194304, 16⟩ [] ⟨"vol", 1, 0, 7, 60, []⟩ (.ok 5) none =
      ⟨.error .noSourceData, []⟩ :=
  (createBlock_failed_admission_no_new_block ⟨1048576, 4194304, 16⟩ []
    ⟨"vol", 1, 0, 7, 60, []⟩ (.ok 5) none).1 rfl

/-! ### Decimal-digit lemmas for claim C10 -/

/-- Digit characters have their ASCII code. -/
theorem digitChar_toNat (d : Nat) (hd : d < 10) : (Char.ofNat (48 + d)).toNat = 48 + d := by
  interval_cases d <;> decide

/-- Every character produced by `toDigitsAux` is an ASCII digit. -/
theorem toDigitsAux_digits :
    ∀ fuel n, n < fuel → ∀ c ∈ toDigitsAux fuel n, 48 ≤ c.toNat ∧ c.toNat ≤ 57 := by
  intro fuel
  induction fuel with
  | zero => intro n hn; omega
  | succ fuel ih =>
    intro n hn c hc
    simp only [toDigitsAux] at hc
    by_cases h10 : n < 10
    · rw [if_pos h10] at hc
      rw [List.mem_singleton] at hc
      subst hc
      rw [digitChar_toNat n h10]
      omega
    · rw [if_neg h10] at hc
      rcases List.mem_append.mp hc with hrec | hlast
      · exact ih (n / 10) (by omega) c hrec
      · rw [List.mem_singleton] at hlast
        subst hlast
        rw [digitChar_toNat (n % 10) (by omega)]
        omega

/-- Every character of a formatted number is an ASCII digit. -/
theorem toDigits_digits (n : Nat) : ∀ c ∈ toDigits n, 48 ≤ c.toNat ∧ c.toNat ≤ 57 :=
  toDigitsAux_digits (n + 1) n (by omega)

/-- Digit characters differ from the two separators `'/'` and `'#'`. -/
theorem toDigits_sep {n : Nat} {c : Char} (hc : c ∈ toDigits n) :
    (c != '/') = true ∧ (c != '#') = true := by
  have h := toDigits_digits n c hc
  constructor <;> rw [bne_iff_ne] <;> rintro rfl
  · exact absurd h.1 (by decide)
  · exact absurd h.1 (by decide)

/-- Value of the left fold that reads decimal digits back into a number. -/
theorem toDigitsAux_foldl :
    ∀ fuel n a, n < fuel →
      (toDigitsAux fuel n).foldl (fun acc c => 10 * acc + (c.toNat - 48)) a =
        a * 10 ^ (toDigitsAux fuel n).length + n := by
  intro fuel
  induction fuel with
  | zero => intro n a hn; omega
  | succ fuel ih =>
    intro n a hn
    simp only [toDigitsAux]
    by_cases h10 : n < 10
    · rw [if_pos h10]
      simp only [List.foldl_cons, List.foldl_nil, List.length_cons, List.length_nil]
      rw [digitChar_toNat n h10]
      simp only [zero_add, pow_one]
      omega
    · rw [if_neg h10]
      rw [List.foldl_append]
      rw [ih (n / 10) a (by omega)]
      simp only [List.foldl_cons, List.foldl_nil]
      rw [digitChar_toNat (n % 10) (by omega)]
      rw [List.length_append]
      simp only [List.length_cons, List.length_nil, zero_add, pow_succ]
      have key : ∀ u : Nat, 10 * (u + n / 10) + (48 + n % 10 - 48) = u * 10 + n := by
        intro u; omega
      rw [key (a * 10 ^ (toDigitsAux fuel (n / 10)).length), mul_assoc]

/-- Decimal formatting is injective. -/
theorem toDigits_inj {m n : Nat} (h : toDigits m = toDigits n) : m = n := by
  have hm := toDigitsAux_foldl (m + 1) m 0 (by omega)
  have hn := toDigitsAux_foldl (n + 1) n 0 (by omega)
  unfold toDigits at h
  rw [h] at hm
  simp only [zero_mul, zero_add] at hm hn
  omega

/-- `takeWhile` over a list that satisfies the predicate followed by a
stopper returns exactly the satisfying part. -/
theorem takeWhile_append_stop {α : Type} (p : α → Bool) (xs ys : List α) (y : α)
    (hx : ∀ x ∈ xs, p x = true) (hy : p y = false) :
    (xs ++ y :: ys).takeWhile p = xs := by
  induction xs with
  | nil => simp [List.takeWhile_cons, hy]
  | cons a as ih =>
    have ha : p a = true := hx a (List.mem_cons_self a as)
    simp only [List.cons_append, List.takeWhile_cons, ha, if_true]
    rw [ih (fun x hxm => hx x (List.mem_cons_of_mem a hxm))]

/-- Character-list view of a generated cache key. -/
theorem genCacheBlockKey_data (v : String) (i o ver : Nat) :
    (GenCacheBlockKey v i o ver).data =
      v.data ++ '/' :: (toDigits i ++ '#' :: (toDigits o ++ '#' :: toDigits ver)) := by
  have happ : ∀ a b : String, (a ++ b).data = a.data ++ b.data := by
    intro a b; cases a; cases b; rfl
  have hslash : ("/" : String).data = ['/'] := rfl
  have hhash : ("#" : String).data = ['#'] := rfl
  unfold GenCacheBlockKey formatUint
  rw [happ, happ, happ, happ, happ, happ, hslash, hhash]
  simp [List.append_assoc]

/-- The prefix of a generated key before its first `'/'` is the volume,
provided the volume itself contains no `'/'`. -/
theorem firstField_genCacheBlockKey (v : String) (i o ver : Nat)
    (hv : ∀ c ∈ v.data, c ≠ '/') :
    firstField '/' (GenCacheBlockKey v i o ver) = v := by
  unfold firstField
  rw [genCacheBlockKey_data]
  rw [takeWhile_append_stop (fun c => c != '/') v.data _ '/'
    (fun x hx => bne_iff_ne.mpr (hv x hx)) (by decide)]

/-- Splitting two digit-runs at a `'#'` separator: equal concatenations
force equal numbers and equal remainders. -/
theorem digits_sep_inj {a b : Nat} {s t : List Char}
    (h : toDigits a ++ '#' :: s = toDigits b ++ '#' :: t) : a = b ∧ s = t := by
  have ha := takeWhile_append_stop (fun c => c != '#') (toDigits a) s '#'
    (fun c hc => (toDigits_sep hc).2) (by decide)
  have hb := takeWhile_append_stop (fun c => c != '#') (toDigits b) t '#'
    (fun c hc => (toDigits_sep hc).2) (by decide)
  have hab : toDigits a = toDigits b := by rw [← ha, ← hb, h]
  refine ⟨toDigits_inj hab, ?_⟩
  rw [hab] at h
  have h₂ := List.append_cancel_left h
  injection h₂

/-- Claim C10: `GenCacheBlockKey` is injective on tuples whose volume contains no
`'/'`, and the prefix of the key before its first `'/'` is exactly the
volume — the property `EvictVolumeCache`'s filter
(`strings.Split(key, "/")[0]`) relies on. -/
theorem genCacheBlockKey_injective_slashfree (v₁ v₂ : String)
    (i₁ o₁ ver₁ i₂ o₂ ver₂ : Nat)
    (hv₁ : ∀ c ∈ v₁.data, c ≠ '/') (hv₂ : ∀ c ∈ v₂.data, c ≠ '/') :
    (GenCacheBlockKey v₁ i₁ o₁ ver₁ = GenCacheBlockKey v₂ i₂ o₂ ver₂ →
      v₁ = v₂ ∧ i₁ = i₂ ∧ o₁ = o₂ ∧ ver₁ = ver₂) ∧
    firstField '/' (GenCacheBlockKey v₁ i₁ o₁ ver₁) = v₁ := by
  have ff₁ := firstField_genCacheBlockKey v₁ i₁ o₁ ver₁ hv₁
  refine ⟨?_, ff₁⟩
  intro h
  have hvv : v₁ = v₂ := by
    have ff₂ := firstField_genCacheBlockKey v₂ i₂ o₂ ver₂ hv₂
    rw [← ff₁, ← ff₂, h]
  subst hvv
  have hd : (GenCacheBlockKey v₁ i₁ o₁ ver₁).data = (GenCacheBlockKey v₁ i₂ o₂ ver₂).data := by
    rw [h]
  rw [genCacheBlockKey_data, genCacheBlockKey_data] at hd
  have hr := List.append_cancel_left hd
  injection hr with _ hr
  obtain ⟨hi, hr₂⟩ := digits_sep_inj hr
  obtain ⟨ho, hr₃⟩ := digits_sep_inj hr₂
  exact ⟨rfl, hi, ho, toDigits_inj hr₃⟩

/-- Witness for C10 at concrete inputs: distinct tuples with slash-free
volumes map to their volumes under the first-field projection, and key
equality forces tuple equality. -/
theorem genCacheBlockKey_injective_slashfree_app :
    firstField '/' (GenCacheBlockKey "vol" 1 2 3) = "vol" :=
  (genCacheBlockKey_injective_slashfree "vol" "vol" 1 2 3 1 2 3
    (by decide) (by decide)).2

end CacheEngineModel
